import Mathlib

/-!
Verification development for the gifanimator repository (src/app.py).

The program is a single-threaded Tk GIF viewer built around one controller
class, GifAnimatorApp.  The development below shallowly embeds the parts of
that class that carry the documented behaviour: the frame/duration decoding
of _read_gif_frames, the bounded LRU preview cache of _get_or_create_photo
(a Python OrderedDict used with move_to_end and popitem), the playback state
machine (play, pause, _schedule_next_frame, _playback_tick), frame display
(show_frame, step_frame, _on_slider_change), loading (load_gif) and sibling
navigation (open_adjacent_file).

Modelling conventions, stated once:
- A Python OrderedDict with unique keys is embedded as an association list
  ordered oldest-to-newest; move_to_end appends the entry at the tail,
  popitem with last set to False drops the head.  List position therefore
  is exactly the recency order maintained by the dictionary.
- Tk timer handles are opaque strings in Python; here the armed timer is
  recorded as the Option of the armed delay in milliseconds, which is the
  observable the specification speaks about.  root.after_cancel never
  raises for a previously returned handle, so cancellation is total.
- The filesystem and the image decoder are external collaborators: load_gif
  receives a map from paths to decoded GIF containers, and directory
  listing plus sorting is abstracted by a listing function, since no claim
  under verification concerns the sort orders themselves.
- Pixel contents are opaque: a decoded frame is a Nat identifier and the
  convert-plus-resize-plus-PhotoImage pipeline of _get_or_create_photo is a
  render callback; the Bool returned alongside records whether that
  callback was invoked (the render-call counter of the specification).
- Python floats: the only float arithmetic in scope is duration / speed for
  speed in the set 0.5, 1.0, 2.0, with duration a positive machine integer
  far below 2 to the 52, so the float quotient is exact and int() of it is
  truncation toward zero, equal to the floor of the exact quotient.
- Display-only surfaces (message boxes, the tree view rendering, the frame
  info label text, fonts, HiDPI scaling) are outside the session state the
  claims quantify over and are not modelled.
-/

namespace GifAnimator

/-- GifAnimatorApp.FRAME_CACHE_LIMIT in src/app.py. -/
def FRAME_CACHE_LIMIT : Nat := 120

/-- GifAnimatorApp.MIN_FRAME_DELAY_MS in src/app.py. -/
def MIN_FRAME_DELAY_MS : Nat := 30

/-- The playback speed multiplier.  The UI offers exactly 0.5x, 1x and 2x
radio buttons bound to speed_var, so the DoubleVar only ever holds one of
these three values (none of them is 0.0, so the or-1.0 guard in
_schedule_next_frame never fires). -/
inductive Speed where
  | half
  | one
  | two
deriving Repr, DecidableEq

/-- The value of int(d / speed) in _schedule_next_frame for a duration d of
at least 20 ms: division by 0.5 doubles, by 1.0 is the identity, by 2.0
halves with truncation toward zero, which for positive d is Nat division. -/
def delayFor (d : Nat) : Speed → Nat
  | .half => 2 * d
  | .one => d
  | .two => d / 2

/-- One frame as surfaced by PIL ImageSequence iteration: opaque pixel
content plus the optional per-frame duration entry of frame.info. -/
structure GifFrame where
  content : Nat
  duration : Option Int
deriving Repr, DecidableEq

/-- A decoded container as surfaced by PIL Image.open: the format string,
the optional container-level duration entry of img.info, and the frames. -/
structure GifFile where
  format : String
  containerDuration : Option Int
  frames : List GifFrame
deriving Repr, DecidableEq

/-- The per-frame fallback duration of _read_gif_frames: base_duration is
int(img.info.get("duration", 100)) and the fallback is base_duration or
100, so a container default that is absent or recorded as 0 becomes 100. -/
def effectiveDefault (g : GifFile) : Int :=
  let base := g.containerDuration.getD 100
  if base = 0 then 100 else base

/-- GifAnimatorApp._read_gif_frames: rejects non-GIF containers, collects
frame copies and durations where each frame duration defaults to the
container default and is clamped below by 20 ms, and rejects an empty
frame list.  The clamp makes every duration positive, so durations are
stored as Nat via toNat, losslessly. -/
def readGifFrames (g : GifFile) : Except String (List Nat × List Nat) :=
  if g.format ≠ "GIF" then
    .error "選択したファイルはGIFではありません。"
  else
    let frames := g.frames.map (fun f => f.content)
    let durations := g.frames.map
      (fun f => (max 20 (f.duration.getD (effectiveDefault g))).toNat)
    if frames = [] then
      .error "フレームが見つかりませんでした。"
    else
      .ok (frames, durations)

/-- A preview-cache key: (frame index, viewport width, viewport height). -/
abbrev Key := Nat × Nat × Nat

/-- The preview_render_cache OrderedDict, oldest entry first. -/
abbrev Cache (α : Type) := List (Key × α)

/-- Dictionary lookup: preview_render_cache.get(cache_key). -/
def cacheLookup {α : Type} (c : Cache α) (k : Key) : Option α :=
  (c.find? (fun e => decide (e.1 = k))).map (fun e => e.2)

/-- OrderedDict.move_to_end: the entry for the key is moved to the newest
position.  On a key that is present once (the dictionary invariant) this
removes that entry and appends it at the tail. -/
def moveToEnd {α : Type} (c : Cache α) (k : Key) : Cache α :=
  match cacheLookup c k with
  | none => c
  | some v => c.filter (fun e => decide (e.1 ≠ k)) ++ [(k, v)]

/-- The eviction loop of _get_or_create_photo: while the cache holds more
than FRAME_CACHE_LIMIT entries, popitem with last set to False removes the
oldest entry. -/
def evictOverflow {α : Type} (c : Cache α) : Cache α :=
  if FRAME_CACHE_LIMIT < c.length then evictOverflow c.tail else c
termination_by c.length
decreasing_by
  simp only [List.length_tail]
  omega

/-- GifAnimatorApp._get_or_create_photo at a fixed viewport size: on a hit
the cached photo is returned and its recency refreshed; on a miss the
render callback (pixel-format conversion, aspect-fit resize, PhotoImage
construction) runs, the result is inserted as the newest entry and the
overflow loop evicts from the oldest end.  The Bool records whether the
render callback ran. -/
def getOrCreatePhoto {α : Type} (render : Nat → α) (c : Cache α)
    (frameIndex pw ph : Nat) : α × Cache α × Bool :=
  let key : Key := (frameIndex, pw, ph)
  match cacheLookup c key with
  | some v => (v, moveToEnd c key, false)
  | none =>
    let photo := render frameIndex
    let c1 := moveToEnd (c ++ [(key, photo)]) key
    (photo, evictOverflow c1, true)

/-- One sidebar catalog entry (dataclass GifEntry in src/app.py). -/
structure GifEntry where
  path : String
  mtime : Int
  size : Nat
deriving Repr, DecidableEq

/-- The mutable session state owned by GifAnimatorApp, restricted to the
fields with program-visible behaviour.  playbackAfterId records the armed
delay of the outstanding playback timer; pilFrames holds opaque frame
contents; previewRenderCache holds opaque photos. -/
structure AppState where
  currentFile : Option String
  currentDirectory : Option String
  gifEntries : List GifEntry
  pilFrames : List Nat
  frameDurationsMs : List Nat
  currentFrameIndex : Int
  playing : Bool
  playbackAfterId : Option Nat
  resizeAfterId : Option Nat
  previewRenderCache : Cache Nat
  previewSize : Nat × Nat
  currentPhoto : Option Nat
  speedVar : Speed
  updatingSlider : Bool
  sliderTo : Int
  sliderPos : Int
  labelW : Nat
  labelH : Nat
  statusVar : String
deriving Repr, DecidableEq

/-- GifAnimatorApp._get_preview_size at unit UI scale: widget dimensions
when realised, otherwise the 640 by 480 fallback. -/
def getPreviewSize (st : AppState) : Nat × Nat :=
  if st.labelW ≤ 1 ∨ st.labelH ≤ 1 then (640, 480)
  else (st.labelW, st.labelH)

/-- GifAnimatorApp._set_slider_bounds: range 0 to frame_count - 1 (at least
0) and position 0; the updating flag is raised and lowered around the
configuration, so its net value is unchanged. -/
def setSliderBounds (st : AppState) (frameCount : Nat) : AppState :=
  { st with sliderTo := max 0 ((frameCount : Int) - 1), sliderPos := 0 }

/-- GifAnimatorApp.pause: clear the playing flag and, when a playback timer
handle is outstanding, cancel it (after_cancel is total) and clear it. -/
def pause (st : AppState) : AppState :=
  let st1 := { st with playing := false }
  match st1.playbackAfterId with
  | some _ => { st1 with playbackAfterId := none }
  | none => st1

/-- GifAnimatorApp.show_frame: no-op without frames; otherwise the index is
clamped into range; unless forced, a repeated index with a photo already
displayed returns early; otherwise the index is stored, the photo obtained
through the cache, and the slider synchronised.  The render argument is
the convert-and-fit pipeline, a function of frame index and viewport. -/
def showFrame (render : Nat → Nat × Nat → Nat) (st : AppState)
    (index : Int) (force : Bool) : AppState :=
  if st.pilFrames = [] then st
  else
    let n : Int := (st.pilFrames.length : Int)
    let clamped := max 0 (min index (n - 1))
    if force = false ∧ clamped = st.currentFrameIndex ∧ st.currentPhoto ≠ none then
      st
    else
      let st1 := { st with currentFrameIndex := clamped }
      let ps := getPreviewSize st1
      let res := getOrCreatePhoto (fun i => render i ps)
        st1.previewRenderCache clamped.toNat ps.1 ps.2
      { st1 with
          previewRenderCache := res.2.1
          currentPhoto := some res.1
          sliderPos := clamped }

/-- GifAnimatorApp.step_frame: without frames do nothing, otherwise show
the frame at (current + delta) mod count; Python's mod on a positive
modulus is Int.emod. -/
def stepFrame (render : Nat → Nat × Nat → Nat) (st : AppState)
    (delta : Int) : AppState :=
  if st.pilFrames = [] then st
  else
    showFrame render st
      ((st.currentFrameIndex + delta).emod (st.pilFrames.length : Int)) false

/-- GifAnimatorApp._on_slider_change: ignored while the program itself is
updating the slider or without frames; otherwise shows the scrubbed
frame (the slider delivers whole numbers, modelled as Int). -/
def onSliderChange (render : Nat → Nat × Nat → Nat) (st : AppState)
    (value : Int) : AppState :=
  if st.updatingSlider = true ∨ st.pilFrames = [] then st
  else showFrame render st value false

/-- GifAnimatorApp._schedule_next_frame: only while playing with frames
loaded, arm the playback timer for max(MIN_FRAME_DELAY_MS, int(d / speed))
where d is the current frame's duration.  Under the index invariant the
current index is in range, so the Python list subscript is total and equal
to the default-valued access used here. -/
def scheduleNextFrame (st : AppState) : AppState :=
  if st.playing = false ∨ st.pilFrames = [] then st
  else
    let d := st.frameDurationsMs.getD st.currentFrameIndex.toNat 0
    let delay := max MIN_FRAME_DELAY_MS (delayFor d st.speedVar)
    { st with playbackAfterId := some delay }

/-- GifAnimatorApp.play: without frames or while already playing, return
without touching anything; otherwise raise the flag and schedule. -/
def play (st : AppState) : AppState :=
  if st.pilFrames = [] then st
  else if st.playing = true then st
  else scheduleNextFrame { st with playing := true }

/-- GifAnimatorApp._playback_tick: a stale or frameless tick does nothing;
otherwise advance to (current + 1) mod count, show it, and re-arm. -/
def playbackTick (render : Nat → Nat × Nat → Nat) (st : AppState) : AppState :=
  if st.playing = false ∨ st.pilFrames = [] then st
  else
    let next := (st.currentFrameIndex + 1).emod (st.pilFrames.length : Int)
    scheduleNextFrame (showFrame render st next false)

/-- GifAnimatorApp.load_gif.  fs maps a path to its decoded container when
the path exists (path.exists plus Image.open plus the frame iteration);
dirOf is Path.parent; listing abstracts refresh_file_list's directory scan
and sort for the active sort key.  A missing path or a decode error is
reported through a message box and leaves the state untouched; success
pauses playback, replaces the sequence, clears the preview cache, resets
the index, shows frame 0 forced, refreshes the catalog and the status. -/
def loadGif (dirOf : String → String) (listing : String → List GifEntry)
    (fs : String → Option GifFile) (render : Nat → Nat × Nat → Nat)
    (st : AppState) (path : String) : AppState :=
  match fs path with
  | none => st
  | some g =>
    match readGifFrames g with
    | .error _ => st
    | .ok (frames, durations) =>
      let st1 := pause st
      let st2 := { st1 with
        currentFile := some path
        currentDirectory := some (dirOf path)
        pilFrames := frames
        frameDurationsMs := durations
        previewRenderCache := ([] : Cache Nat)
        currentFrameIndex := 0 }
      let st3 := setSliderBounds st2 frames.length
      let st4 := showFrame render st3 0 true
      let st5 := { st4 with gifEntries := listing (dirOf path) }
      { st5 with statusVar := "Loaded: " ++ path }

/-- GifAnimatorApp.open_adjacent_file: with an empty catalog do nothing;
with no current file, or a current file absent from the catalog, load the
first entry; otherwise load the entry at (index + offset) mod count. -/
def openAdjacentFile (dirOf : String → String)
    (listing : String → List GifEntry) (fs : String → Option GifFile)
    (render : Nat → Nat × Nat → Nat) (st : AppState) (offset : Int) : AppState :=
  match st.gifEntries with
  | [] => st
  | first :: _ =>
    let allPaths := st.gifEntries.map (fun e => e.path)
    match st.currentFile with
    | none => loadGif dirOf listing fs render st first.path
    | some cur =>
      if cur ∈ allPaths then
        let index : Int := (allPaths.indexOf cur : Int)
        let nextIndex := (index + offset).emod (allPaths.length : Int)
        loadGif dirOf listing fs render st (allPaths.getD nextIndex.toNat "")
      else
        loadGif dirOf listing fs render st first.path

/-- Round-half-to-even (Python's round) of the exact rational d / 2. -/
def roundHalfEven2 (d : Nat) : Nat :=
  if d % 2 = 0 then d / 2
  else if (d / 2) % 2 = 0 then d / 2 else d / 2 + 1

/-- The per-tick delay formula in the specification's words:
max(minimumDelay, round(frameDuration / speedMultiplier)).  For speeds 0.5
and 1.0 the quotient is an integer; for speed 2.0 round acts on d / 2. -/
def specRoundDelay (d : Nat) : Speed → Nat
  | .half => max MIN_FRAME_DELAY_MS (2 * d)
  | .one => max MIN_FRAME_DELAY_MS d
  | .two => max MIN_FRAME_DELAY_MS (roundHalfEven2 d)

/-- A baseline session state for concrete evaluations. -/
def baseState : AppState where
  currentFile := none
  currentDirectory := none
  gifEntries := []
  pilFrames := []
  frameDurationsMs := []
  currentFrameIndex := 0
  playing := false
  playbackAfterId := none
  resizeAfterId := none
  previewRenderCache := []
  previewSize := (0, 0)
  currentPhoto := none
  speedVar := .one
  updatingSlider := false
  sliderTo := 0
  sliderPos := 0
  labelW := 0
  labelH := 0
  statusVar := ""

/-- A playing one-frame state whose current duration is 63 ms at speed 2x. -/
def c1State : AppState :=
  { baseState with
      pilFrames := [1]
      frameDurationsMs := [63]
      playing := true
      speedVar := .two }

/-- A playing three-frame state with durations 100, 100, 100 at speed 2x. -/
def c1HundredState : AppState :=
  { baseState with
      pilFrames := [1, 2, 3]
      frameDurationsMs := [100, 100, 100]
      playing := true
      speedVar := .two }

/-- A two-frame GIF whose container default is recorded as 0 and whose
second frame carries an explicit 5 ms duration. -/
def c7File : GifFile where
  format := "GIF"
  containerDuration := some 0
  frames := [{ content := 1, duration := none },
             { content := 2, duration := some 5 }]

/-- One observable preview-cache operation: a frame request at a viewport
(the only mutating access, _get_or_create_photo) or the full invalidation
performed by _clear_preview_cache. -/
inductive CacheOp where
  | request (frameIndex pw ph : Nat)
  | clear
deriving Repr, DecidableEq

/-- Apply one cache operation to the cache alone. -/
def applyCacheOp (render : Nat → Nat) (c : Cache Nat) : CacheOp → Cache Nat
  | .request fi pw ph => (getOrCreatePhoto render c fi pw ph).2.1
  | .clear => []

/-- Run a whole sequence of cache operations from the empty cache the
application starts with. -/
def runCacheOps (render : Nat → Nat) (ops : List CacheOp) : Cache Nat :=
  ops.foldl (applyCacheOp render) []

/-- A full cache: FRAME_CACHE_LIMIT distinct keys, oldest first. -/
def c3cache : Cache Nat :=
  (List.range FRAME_CACHE_LIMIT).map (fun i => ((i, 0, 0), 0))

/-- A one-entry cache holding photo 5 under key (0, 10, 10). -/
def c5cache : Cache Nat := [((0, 10, 10), 5)]

/-- The current-frame-index invariant of the specification: in range
whenever a sequence is loaded. -/
def indexInv (st : AppState) : Prop :=
  st.pilFrames ≠ [] →
    0 ≤ st.currentFrameIndex ∧
      st.currentFrameIndex < (st.pilFrames.length : Int)

/-- One frame-navigation or transport action after a load: a step button
or arrow key, a slider scrub, a playback timer tick, a direct display
request, or the transport buttons. -/
inductive UserOp where
  | step (delta : Int)
  | scrub (value : Int)
  | tick
  | display (index : Int) (force : Bool)
  | playCmd
  | pauseCmd
deriving Repr, DecidableEq

/-- Dispatch one user action to the corresponding controller method. -/
def applyUserOp (render : Nat → Nat × Nat → Nat) (st : AppState) :
    UserOp → AppState
  | .step d => stepFrame render st d
  | .scrub v => onSliderChange render st v
  | .tick => playbackTick render st
  | .display i f => showFrame render st i f
  | .playCmd => play st
  | .pauseCmd => pause st

/-- A three-entry catalog with b.gif as the current file. -/
def c8State : AppState :=
  { baseState with
      currentFile := some "b.gif"
      gifEntries := [{ path := "a.gif", mtime := 0, size := 0 },
                     { path := "b.gif", mtime := 0, size := 0 },
                     { path := "c.gif", mtime := 0, size := 0 }] }

/-- C1, counterexample.  With duration 63 ms at speed 2.0 the scheduler
arms int(63 / 2.0) = 31 ms after the minimum-delay clamp, while the
claimed formula max(minimumDelay, round(63 / 2.0)) yields 32 ms: the
scheduler truncates the quotient, it does not round it. -/
theorem c1_round_counterexample :
    (scheduleNextFrame c1State).playbackAfterId = some 31 ∧
    specRoundDelay 63 Speed.two = 32 ∧
    (scheduleNextFrame c1State).playbackAfterId ≠ some (specRoundDelay 63 Speed.two) := by
  refine ⟨rfl, rfl, ?_⟩
  intro h
  simp [scheduleNextFrame, c1State, baseState, specRoundDelay, roundHalfEven2,
    delayFor, MIN_FRAME_DELAY_MS] at h

/-- C1, amended: the delay armed by _schedule_next_frame for current frame
duration d and speed s is max(MIN_FRAME_DELAY_MS, trunc(d / s)) with the
quotient truncated toward zero (the floor, as durations are positive), the
floor being the fixed 30 ms MIN_FRAME_DELAY_MS; with durations 100, 100,
100 ms and speed 2.0 every per-tick delay is max(30, 50) = 50 ms. -/
theorem c1_tick_delay_floor :
    (∀ (st : AppState) (d : Nat), st.playing = true → st.pilFrames ≠ [] →
      st.frameDurationsMs.getD st.currentFrameIndex.toNat 0 = d →
      (scheduleNextFrame st).playbackAfterId
        = some (max MIN_FRAME_DELAY_MS (delayFor d st.speedVar))) ∧
    (∀ i : Int, 0 ≤ i → i < 3 →
      (scheduleNextFrame { c1HundredState with currentFrameIndex := i }).playbackAfterId
        = some (max MIN_FRAME_DELAY_MS 50)) := by
  constructor
  · intro st d hp hf hd
    subst hd
    simp [scheduleNextFrame, hp, hf, List.getD]
  · intro i h0 h3
    interval_cases i <;> rfl

/-- C1, witness for the amended theorem at concrete inputs. -/
theorem c1_tick_delay_floor_witness :
    (scheduleNextFrame c1State).playbackAfterId
      = some (max MIN_FRAME_DELAY_MS (delayFor 63 Speed.two)) ∧
    (scheduleNextFrame { c1HundredState with currentFrameIndex := 1 }).playbackAfterId
      = some (max MIN_FRAME_DELAY_MS 50) :=
  ⟨c1_tick_delay_floor.1 c1State 63 rfl (by simp [c1State, baseState]) rfl,
   c1_tick_delay_floor.2 1 (by decide) (by decide)⟩

/-- C2: a load that fails (missing path, non-GIF container, or zero
decoded frames) only reports the error and returns; the whole prior
session state, frame sequence, durations, index, file, directory and
render cache included, is returned unchanged. -/
theorem c2_load_failure_preserves_state :
    (∀ dirOf listing fs render (st : AppState) (path : String),
      fs path = none →
      loadGif dirOf listing fs render st path = st) ∧
    (∀ dirOf listing fs render (st : AppState) (path : String)
      (g : GifFile) (e : String),
      fs path = some g → readGifFrames g = .error e →
      loadGif dirOf listing fs render st path = st) ∧
    (∀ g : GifFile, g.format ≠ "GIF" →
      readGifFrames g = .error "選択したファイルはGIFではありません。") ∧
    (∀ g : GifFile, g.frames = [] → g.format = "GIF" →
      readGifFrames g = .error "フレームが見つかりませんでした。") := by
  refine ⟨?_, ?_, ?_, ?_⟩
  · intro dirOf listing fs render st path h
    simp [loadGif, h]
  · intro dirOf listing fs render st path g e hg he
    simp [loadGif, hg, he]
  · intro g h
    simp [readGifFrames, h]
  · intro g hframes hfmt
    simp [readGifFrames, hfmt, hframes]

/-- C2, witness: a filesystem with no files, then one whose only file is a
PNG container, then one whose GIF decodes to zero frames. -/
theorem c2_load_failure_preserves_state_witness :
    loadGif id (fun _ => []) (fun _ => none) (fun _ _ => 0) baseState "a.gif"
      = baseState ∧
    readGifFrames { format := "PNG", containerDuration := none, frames := [] }
      = .error "選択したファイルはGIFではありません。" ∧
    readGifFrames { format := "GIF", containerDuration := none, frames := [] }
      = .error "フレームが見つかりませんでした。" :=
  ⟨c2_load_failure_preserves_state.1 id (fun _ => []) (fun _ => none)
      (fun _ _ => 0) baseState "a.gif" rfl,
   c2_load_failure_preserves_state.2.2.1 _ (by decide),
   c2_load_failure_preserves_state.2.2.2 _ rfl rfl⟩

/-- C6: the playback state machine.  play while already playing returns
before touching any field; pause while stopped with no outstanding timer
is the identity (after_cancel is not even reached, so no cancellation
error can arise); pause from playing clears the flag and the outstanding
timer; a tick that fires while no longer playing does nothing. -/
theorem c6_playback_transitions :
    (∀ st : AppState, st.playing = true → play st = st) ∧
    (∀ st : AppState, st.playing = false → st.playbackAfterId = none →
      pause st = st) ∧
    (∀ st : AppState, st.playing = true →
      (pause st).playing = false ∧ (pause st).playbackAfterId = none) ∧
    (∀ (render : Nat → Nat × Nat → Nat) (st : AppState), st.playing = false →
      playbackTick render st = st) := by
  refine ⟨?_, ?_, ?_, ?_⟩
  · intro st hp
    by_cases hf : st.pilFrames = [] <;> simp [play, hp, hf]
  · intro st h1 h2
    cases st
    simp_all [pause]
  · intro st hp
    cases h : st.playbackAfterId <;> simp [pause, h]
  · intro render st hp
    simp [playbackTick, hp]

/-- C6, witness at concrete states. -/
theorem c6_playback_transitions_witness :
    play c1State = c1State ∧
    pause baseState = baseState ∧
    ((pause c1State).playing = false ∧ (pause c1State).playbackAfterId = none) ∧
    playbackTick (fun _ _ => 0) baseState = baseState :=
  ⟨c6_playback_transitions.1 c1State rfl,
   c6_playback_transitions.2.1 baseState rfl rfl,
   c6_playback_transitions.2.2.1 c1State rfl,
   c6_playback_transitions.2.2.2 (fun _ _ => 0) baseState rfl⟩

/-- C7: after a successful decode every stored duration is at least 20 ms,
the duration list is index-aligned with the non-empty frame list, a frame
without an explicit duration entry receives the (20 ms-clamped) container
default, and that default is 100 ms when the container entry is absent or
recorded as 0. -/
theorem c7_duration_clamping :
    (∀ (g : GifFile) (frames durations : List Nat),
      readGifFrames g = .ok (frames, durations) →
      (∀ d ∈ durations, 20 ≤ d) ∧
      durations.length = frames.length ∧
      frames ≠ [] ∧
      (∀ i : Nat, ∀ h : i < g.frames.length,
        (g.frames.get ⟨i, h⟩).duration = none →
        durations.getD i 0 = (max 20 (effectiveDefault g)).toNat)) ∧
    (∀ g : GifFile, g.containerDuration = none → effectiveDefault g = 100) ∧
    (∀ g : GifFile, g.containerDuration = some 0 → effectiveDefault g = 100) := by
  refine ⟨?_, ?_, ?_⟩
  · intro g frames durations hok
    have hfmt : g.format = "GIF" := by
      by_contra h
      simp [readGifFrames, h] at hok
    have hne : g.frames.map (fun f => f.content) ≠ [] := by
      by_contra h
      simp [readGifFrames, hfmt, h] at hok
    have hfr : frames = g.frames.map (fun f => f.content) ∧
        durations = g.frames.map
          (fun f => (max 20 (f.duration.getD (effectiveDefault g))).toNat) := by
      simp [readGifFrames, hfmt, hne] at hok
      exact ⟨hok.1.symm, hok.2.symm⟩
    obtain ⟨hfr1, hfr2⟩ := hfr
    subst hfr1 hfr2
    refine ⟨?_, by simp, hne, ?_⟩
    · intro d hd
      simp only [List.mem_map] at hd
      obtain ⟨f, _, rfl⟩ := hd
      have h20 : (20 : Int) ≤ max 20 (f.duration.getD (effectiveDefault g)) :=
        le_max_left _ _
      omega
    · intro i h hnone
      have hlen : i < (g.frames.map
          (fun f => (max 20 (f.duration.getD (effectiveDefault g))).toNat)).length := by
        simpa using h
      rw [List.getD_eq_getElem _ _ hlen]
      simp [List.get_eq_getElem] at hnone
      simp [hnone]
  · intro g h
    simp [effectiveDefault, h]
  · intro g h
    simp [effectiveDefault, h]

/-- C7, witness at the concrete container c7File. -/
theorem c7_duration_clamping_witness :
    readGifFrames c7File = .ok ([1, 2], [100, 20]) ∧
    (∀ d ∈ [100, 20], 20 ≤ d) ∧
    effectiveDefault c7File = 100 :=
  ⟨rfl,
   (c7_duration_clamping.1 c7File [1, 2] [100, 20] rfl).1,
   c7_duration_clamping.2.2 c7File rfl⟩

/-- C10: with no frame sequence loaded, step_frame, play, a playback tick
and show_frame all return immediately, leaving every session-state field
untouched and raising nothing. -/
theorem c10_empty_noops (render : Nat → Nat × Nat → Nat) (st : AppState)
    (delta index : Int) (force : Bool) (h : st.pilFrames = []) :
    stepFrame render st delta = st ∧ play st = st ∧
    playbackTick render st = st ∧ showFrame render st index force = st := by
  refine ⟨?_, ?_, ?_, ?_⟩
  · simp [stepFrame, h]
  · simp [play, h]
  · simp [playbackTick, h]
  · simp [showFrame, h]

/-- C10, witness at the frameless base state. -/
theorem c10_empty_noops_witness :
    stepFrame (fun _ _ => 0) baseState 5 = baseState ∧
    play baseState = baseState ∧
    playbackTick (fun _ _ => 0) baseState = baseState ∧
    showFrame (fun _ _ => 0) baseState (-2) true = baseState :=
  c10_empty_noops (fun _ _ => 0) baseState 5 (-2) true rfl

/-- A key that misses the cache differs from every stored key. -/
lemma cacheLookup_none_forall {α : Type} {c : Cache α} {k : Key}
    (h : cacheLookup c k = none) : ∀ e ∈ c, e.1 ≠ k := by
  simp only [cacheLookup, Option.map_eq_none'] at h
  rw [List.find?_eq_none] at h
  intro e he
  simpa using h e he

/-- A key that hits the cache is the key of some stored entry. -/
lemma cacheLookup_some_exists {α : Type} {c : Cache α} {k : Key} {v : α}
    (h : cacheLookup c k = some v) : ∃ e ∈ c, e.1 = k := by
  simp only [cacheLookup, Option.map_eq_some'] at h
  obtain ⟨e, he, _⟩ := h
  exact ⟨e, List.mem_of_find?_eq_some he, by simpa using List.find?_some he⟩

/-- Refreshing the recency of a present key cannot grow the cache. -/
lemma moveToEnd_length_le {α : Type} {c : Cache α} {k : Key} {v : α}
    (h : cacheLookup c k = some v) : (moveToEnd c k).length ≤ c.length := by
  obtain ⟨e, he, hek⟩ := cacheLookup_some_exists h
  have hfil : (c.filter (fun e => decide (e.1 ≠ k))).length < c.length := by
    apply List.length_filter_lt_length_iff_exists.mpr
    exact ⟨e, he, by simp [hek]⟩
  simp only [moveToEnd, h, List.length_append, List.length_singleton]
  omega

/-- Unfolding equation of the eviction loop. -/
lemma evictOverflow_eq {α : Type} (c : Cache α) :
    evictOverflow c
      = if FRAME_CACHE_LIMIT < c.length then evictOverflow c.tail else c := by
  rw [evictOverflow]

/-- A cache within the bound is untouched by the eviction loop. -/
lemma evictOverflow_of_le {α : Type} {c : Cache α}
    (h : c.length ≤ FRAME_CACHE_LIMIT) : evictOverflow c = c := by
  rw [evictOverflow_eq]
  simp [Nat.not_lt.mpr h]

/-- The eviction loop always leaves at most FRAME_CACHE_LIMIT entries. -/
lemma evictOverflow_length_le {α : Type} (c : Cache α) :
    (evictOverflow c).length ≤ FRAME_CACHE_LIMIT := by
  induction c with
  | nil => rw [evictOverflow_eq]; simp
  | cons x xs ih =>
    rw [evictOverflow_eq]
    split
    · simpa using ih
    · next h => exact Nat.le_of_not_lt h

/-- A cache one over the bound loses exactly its oldest entry. -/
lemma evictOverflow_of_succ {α : Type} {c : Cache α}
    (h : c.length = FRAME_CACHE_LIMIT + 1) : evictOverflow c = c.tail := by
  rw [evictOverflow_eq, if_pos (by omega)]
  apply evictOverflow_of_le
  simp only [List.length_tail]
  omega

/-- Appending a fresh key already leaves it in the newest position, so the
subsequent move_to_end is the identity. -/
lemma moveToEnd_append_fresh {α : Type} (c : Cache α) (k : Key) (v : α)
    (h : cacheLookup c k = none) :
    moveToEnd (c ++ [(k, v)]) k = c ++ [(k, v)] := by
  have hall := cacheLookup_none_forall h
  have h0 : c.find? (fun e => decide (e.1 = k)) = none := by
    simp only [cacheLookup, Option.map_eq_none'] at h
    exact h
  have hfind : cacheLookup (c ++ [(k, v)]) k = some v := by
    simp [cacheLookup, List.find?_append, h0]
  have h1 : c.filter (fun e => decide (e.1 ≠ k)) = c :=
    List.filter_eq_self.mpr (fun e he => by simpa using hall e he)
  rw [moveToEnd, hfind, List.filter_append, h1]
  simp

/-- The hit branch of _get_or_create_photo. -/
lemma getOrCreatePhoto_hit {α : Type} (render : Nat → α) (c : Cache α)
    (fi pw ph : Nat) (v : α) (h : cacheLookup c (fi, pw, ph) = some v) :
    getOrCreatePhoto render c fi pw ph = (v, moveToEnd c (fi, pw, ph), false) := by
  simp [getOrCreatePhoto, h]

/-- The cache produced by the miss branch of _get_or_create_photo. -/
lemma getOrCreatePhoto_miss_cache {α : Type} (render : Nat → α) (c : Cache α)
    (fi pw ph : Nat) (h : cacheLookup c (fi, pw, ph) = none) :
    (getOrCreatePhoto render c fi pw ph).2.1
      = evictOverflow (c ++ [((fi, pw, ph), render fi)]) := by
  simp [getOrCreatePhoto, h, moveToEnd_append_fresh _ _ _ h]

/-- One _get_or_create_photo call preserves the capacity bound. -/
lemma getOrCreatePhoto_length_le {α : Type} (render : Nat → α) (c : Cache α)
    (fi pw ph : Nat) (hc : c.length ≤ FRAME_CACHE_LIMIT) :
    (getOrCreatePhoto render c fi pw ph).2.1.length ≤ FRAME_CACHE_LIMIT := by
  cases h : cacheLookup c (fi, pw, ph) with
  | some v =>
    rw [getOrCreatePhoto_hit render c fi pw ph v h]
    exact le_trans (moveToEnd_length_le h) hc
  | none =>
    rw [getOrCreatePhoto_miss_cache render c fi pw ph h]
    exact evictOverflow_length_le _

/-- C3: over every sequence of cache operations from the initial empty
cache the preview cache holds at most 120 entries, and an insertion into a
full cache evicts exactly the oldest (least-recently-touched) entry, the
list head, keeping the rest in order and appending the new entry as the
newest.  Recency is list position by construction: a hit moves its entry
to the tail (getOrCreatePhoto_hit together with moveToEnd) and an
insertion appends at the tail. -/
theorem c3_cache_bound_and_lru :
    (∀ (render : Nat → Nat) (ops : List CacheOp),
      (runCacheOps render ops).length ≤ FRAME_CACHE_LIMIT) ∧
    (∀ (render : Nat → Nat) (c : Cache Nat) (fi pw ph : Nat),
      c.length = FRAME_CACHE_LIMIT →
      cacheLookup c (fi, pw, ph) = none →
      (getOrCreatePhoto render c fi pw ph).2.1
        = c.tail ++ [((fi, pw, ph), render fi)]) := by
  constructor
  · have aux : ∀ (render : Nat → Nat) (ops : List CacheOp) (c : Cache Nat),
        c.length ≤ FRAME_CACHE_LIMIT →
        (ops.foldl (applyCacheOp render) c).length ≤ FRAME_CACHE_LIMIT := by
      intro render ops
      induction ops with
      | nil => intro c hc; simpa using hc
      | cons op rest ih =>
        intro c hc
        simp only [List.foldl_cons]
        apply ih
        cases op with
        | request fi pw ph =>
          simpa [applyCacheOp] using getOrCreatePhoto_length_le render c fi pw ph hc
        | clear => simp [applyCacheOp]
    intro render ops
    exact aux render ops [] (by simp)
  · intro render c fi pw ph hlen hnone
    rw [getOrCreatePhoto_miss_cache render c fi pw ph hnone]
    rw [evictOverflow_of_succ (by simp [hlen])]
    cases c with
    | nil => simp [FRAME_CACHE_LIMIT] at hlen
    | cons x xs => simp

/-- C3, witness: inserting a fresh key into a full 120-entry cache evicts
exactly its oldest entry. -/
theorem c3_cache_bound_and_lru_witness :
    c3cache.length = FRAME_CACHE_LIMIT ∧
    cacheLookup c3cache (120, 0, 0) = none ∧
    (getOrCreatePhoto (fun _ => 7) c3cache 120 0 0).2.1
      = c3cache.tail ++ [((120, 0, 0), 7)] :=
  ⟨by simp [c3cache],
   by rfl,
   c3_cache_bound_and_lru.2 (fun _ => 7) c3cache 120 0 0 (by simp [c3cache]) (by rfl)⟩

/-- C5: a request for a key already in the cache returns the cached photo,
moves its entry to the newest position, and does not invoke the
convert-and-resize render callback; the callback runs exactly on a miss. -/
theorem c5_cache_hit_no_render :
    (∀ (α : Type) (render : Nat → α) (c : Cache α) (fi pw ph : Nat) (v : α),
      cacheLookup c (fi, pw, ph) = some v →
      getOrCreatePhoto render c fi pw ph = (v, moveToEnd c (fi, pw, ph), false)) ∧
    (∀ (α : Type) (c : Cache α) (fi pw ph : Nat) (v : α),
      cacheLookup c (fi, pw, ph) = some v →
      (moveToEnd c (fi, pw, ph)).getLast? = some ((fi, pw, ph), v)) ∧
    (∀ (α : Type) (render : Nat → α) (c : Cache α) (fi pw ph : Nat),
      cacheLookup c (fi, pw, ph) = none →
      (getOrCreatePhoto render c fi pw ph).2.2 = true) := by
  refine ⟨?_, ?_, ?_⟩
  · intro α render c fi pw ph v h
    exact getOrCreatePhoto_hit render c fi pw ph v h
  · intro α c fi pw ph v h
    simp [moveToEnd, h]
  · intro α render c fi pw ph h
    simp [getOrCreatePhoto, h]

/-- C5, witness: a hit on the one-entry cache returns the cached value
without rendering; a miss on the empty cache renders. -/
theorem c5_cache_hit_no_render_witness :
    cacheLookup c5cache (0, 10, 10) = some 5 ∧
    getOrCreatePhoto (fun _ => 9) c5cache 0 10 10
      = (5, moveToEnd c5cache (0, 10, 10), false) ∧
    (getOrCreatePhoto (fun _ => 9) ([] : Cache Nat) 0 10 10).2.2 = true :=
  ⟨rfl,
   c5_cache_hit_no_render.1 Nat (fun _ => 9) c5cache 0 10 10 5 rfl,
   c5_cache_hit_no_render.2.2 Nat (fun _ => 9) [] 0 10 10 rfl⟩

/-- show_frame never changes the loaded sequence. -/
lemma showFrame_pilFrames (render : Nat → Nat × Nat → Nat) (st : AppState)
    (index : Int) (force : Bool) :
    (showFrame render st index force).pilFrames = st.pilFrames := by
  rw [showFrame]
  split
  · rfl
  · dsimp only
    split <;> rfl

/-- With frames loaded, show_frame leaves the clamped index as the current
index, through the early-return branch as well. -/
lemma showFrame_currentFrameIndex (render : Nat → Nat × Nat → Nat)
    (st : AppState) (index : Int) (force : Bool) (h : st.pilFrames ≠ []) :
    (showFrame render st index force).currentFrameIndex
      = max 0 (min index ((st.pilFrames.length : Int) - 1)) := by
  rw [showFrame, if_neg h]
  dsimp only
  split
  · next hcond => exact hcond.2.1.symm
  · rfl

/-- The clamped index lies inside a non-empty sequence. -/
lemma clamped_index_range {n index : Int} (hn : 1 ≤ n) :
    0 ≤ max 0 (min index (n - 1)) ∧ max 0 (min index (n - 1)) < n :=
  ⟨le_max_left 0 _,
   max_lt (by omega) (lt_of_le_of_lt (min_le_right _ _) (by omega))⟩

/-- pause changes neither the sequence nor the index. -/
lemma pause_pilFrames_index (st : AppState) :
    (pause st).pilFrames = st.pilFrames ∧
    (pause st).currentFrameIndex = st.currentFrameIndex := by
  cases h : st.playbackAfterId <;> simp [pause, h]

/-- _schedule_next_frame changes neither the sequence nor the index. -/
lemma scheduleNextFrame_pilFrames_index (st : AppState) :
    (scheduleNextFrame st).pilFrames = st.pilFrames ∧
    (scheduleNextFrame st).currentFrameIndex = st.currentFrameIndex := by
  rw [scheduleNextFrame]
  split <;> simp

/-- The index invariant transfers along equality of the two fields. -/
lemma indexInv_of_eq {s t : AppState} (hp : t.pilFrames = s.pilFrames)
    (hi : t.currentFrameIndex = s.currentFrameIndex) (hs : indexInv s) :
    indexInv t := by
  intro hne
  rw [hp, hi]
  exact hs (by rwa [hp] at hne)

/-- show_frame preserves the index invariant for every requested index. -/
lemma showFrame_indexInv (render : Nat → Nat × Nat → Nat) (st : AppState)
    (index : Int) (force : Bool) (hs : indexInv st) :
    indexInv (showFrame render st index force) := by
  by_cases h : st.pilFrames = []
  · rw [showFrame, if_pos h]
    exact hs
  · intro _
    rw [showFrame_pilFrames, showFrame_currentFrameIndex render st index force h]
    have hn : 1 ≤ (st.pilFrames.length : Int) := by
      have := List.length_pos.mpr h
      omega
    exact clamped_index_range hn

/-- step_frame preserves the index invariant for every delta. -/
lemma stepFrame_indexInv (render : Nat → Nat × Nat → Nat) (st : AppState)
    (delta : Int) (hs : indexInv st) : indexInv (stepFrame render st delta) := by
  rw [stepFrame]
  split
  · exact hs
  · exact showFrame_indexInv render st _ false hs

/-- A slider scrub preserves the index invariant for every value. -/
lemma onSliderChange_indexInv (render : Nat → Nat × Nat → Nat) (st : AppState)
    (value : Int) (hs : indexInv st) : indexInv (onSliderChange render st value) := by
  rw [onSliderChange]
  split
  · exact hs
  · exact showFrame_indexInv render st _ false hs

/-- A playback tick preserves the index invariant. -/
lemma playbackTick_indexInv (render : Nat → Nat × Nat → Nat) (st : AppState)
    (hs : indexInv st) : indexInv (playbackTick render st) := by
  rw [playbackTick]
  split
  · exact hs
  · exact indexInv_of_eq (scheduleNextFrame_pilFrames_index _).1
      (scheduleNextFrame_pilFrames_index _).2
      (showFrame_indexInv render st _ false hs)

/-- play preserves the index invariant. -/
lemma play_indexInv (st : AppState) (hs : indexInv st) : indexInv (play st) := by
  rw [play]
  split
  · exact hs
  · split
    · exact hs
    · exact indexInv_of_eq (scheduleNextFrame_pilFrames_index _).1
        (scheduleNextFrame_pilFrames_index _).2
        (indexInv_of_eq rfl rfl hs)

/-- Every user action preserves the index invariant. -/
lemma applyUserOp_indexInv (render : Nat → Nat × Nat → Nat) (st : AppState)
    (op : UserOp) (hs : indexInv st) : indexInv (applyUserOp render st op) := by
  cases op with
  | step d => exact stepFrame_indexInv render st d hs
  | scrub v => exact onSliderChange_indexInv render st v hs
  | tick => exact playbackTick_indexInv render st hs
  | display i f => exact showFrame_indexInv render st i f hs
  | playCmd => exact play_indexInv st hs
  | pauseCmd =>
    exact indexInv_of_eq (pause_pilFrames_index st).1 (pause_pilFrames_index st).2 hs

/-- A successful decode yields a non-empty frame list. -/
lemma readGifFrames_ok_ne_nil {g : GifFile} {frames durations : List Nat}
    (h : readGifFrames g = .ok (frames, durations)) :
    frames ≠ [] ∧ frames = g.frames.map (fun f => f.content) := by
  by_cases hfmt : g.format = "GIF"
  · by_cases hnil : g.frames.map (fun f => f.content) = []
    · simp [readGifFrames, hfmt, hnil] at h
    · simp [readGifFrames, hfmt, hnil] at h
      obtain ⟨h1, -⟩ := h
      subst h1
      exact ⟨hnil, rfl⟩
  · simp [readGifFrames, hfmt] at h

/-- The sequence and index stored by a successful load: the decoded frames
with the current index reset to 0 and then shown. -/
lemma loadGif_success_fields (dirOf : String → String)
    (listing : String → List GifEntry) (fs : String → Option GifFile)
    (render : Nat → Nat × Nat → Nat) (st : AppState) (path : String)
    (g : GifFile) (frames durations : List Nat)
    (hfs : fs path = some g) (hok : readGifFrames g = .ok (frames, durations)) :
    (loadGif dirOf listing fs render st path).pilFrames = frames ∧
    (loadGif dirOf listing fs render st path).currentFrameIndex = 0 := by
  obtain ⟨hne, -⟩ := readGifFrames_ok_ne_nil hok
  have hn : 1 ≤ (frames.length : Int) := by
    have := List.length_pos.mpr hne
    omega
  constructor
  · simp only [loadGif, hfs, hok, setSliderBounds]
    simp [showFrame_pilFrames]
  · simp only [loadGif, hfs, hok, setSliderBounds]
    rw [showFrame_currentFrameIndex]
    · have h0 : min (0 : Int) ((frames.length : Int) - 1) = 0 := min_eq_left (by omega)
      simp [h0]
    · simpa using hne

/-- C4: a successful load leaves the index at 0 inside the non-empty
sequence, and every following step, scrub, tick, display, play or pause,
over every sequence of such actions with arbitrary integer arguments,
keeps 0 <= currentFrameIndex < frameCount (out-of-range display requests
are clamped). -/
theorem c4_index_invariant :
    (∀ (dirOf : String → String) (listing : String → List GifEntry)
      (fs : String → Option GifFile) (render : Nat → Nat × Nat → Nat)
      (st : AppState) (path : String) (g : GifFile)
      (frames durations : List Nat),
      fs path = some g → readGifFrames g = .ok (frames, durations) →
      (loadGif dirOf listing fs render st path).pilFrames ≠ [] ∧
      indexInv (loadGif dirOf listing fs render st path)) ∧
    (∀ (render : Nat → Nat × Nat → Nat) (st : AppState) (ops : List UserOp),
      indexInv st → indexInv (ops.foldl (applyUserOp render) st)) := by
  constructor
  · intro dirOf listing fs render st path g frames durations hfs hok
    obtain ⟨hpil, hidx⟩ :=
      loadGif_success_fields dirOf listing fs render st path g frames durations hfs hok
    obtain ⟨hne, -⟩ := readGifFrames_ok_ne_nil hok
    refine ⟨by rw [hpil]; exact hne, ?_⟩
    intro _
    rw [hpil, hidx]
    have := List.length_pos.mpr hne
    constructor <;> omega
  · intro render st ops
    induction ops generalizing st with
    | nil => exact fun hs => hs
    | cons op rest ih =>
      intro hs
      exact ih _ (applyUserOp_indexInv render st op hs)

/-- C4, witness: loading the concrete two-frame GIF and then stepping,
ticking and scrubbing through a loaded three-frame state. -/
theorem c4_index_invariant_witness :
    ((loadGif id (fun _ => []) (fun _ => some c7File) (fun _ _ => 0)
        baseState "a.gif").pilFrames ≠ [] ∧
      indexInv (loadGif id (fun _ => []) (fun _ => some c7File) (fun _ _ => 0)
        baseState "a.gif")) ∧
    indexInv ([UserOp.step 1, UserOp.tick, UserOp.scrub 7].foldl
      (applyUserOp (fun _ _ => 0)) c1HundredState) :=
  ⟨c4_index_invariant.1 id (fun _ => []) (fun _ => some c7File) (fun _ _ => 0)
      baseState "a.gif" c7File [1, 2] [100, 20] rfl rfl,
   c4_index_invariant.2 (fun _ _ => 0) c1HundredState
      [UserOp.step 1, UserOp.tick, UserOp.scrub 7]
      (fun _ => by constructor <;> decide)⟩

/-- C8: when the current file occurs in the non-empty catalog, adjacent
navigation loads the entry at (index + direction) mod count, wrapping at
both ends; with no current file, or one absent from the catalog, it falls
back to the first entry. -/
theorem c8_adjacent_navigation :
    (∀ (dirOf : String → String) (listing : String → List GifEntry)
      (fs : String → Option GifFile) (render : Nat → Nat × Nat → Nat)
      (st : AppState) (offset : Int) (cur : String),
      st.currentFile = some cur →
      cur ∈ st.gifEntries.map (fun e => e.path) →
      openAdjacentFile dirOf listing fs render st offset
        = loadGif dirOf listing fs render st
            ((st.gifEntries.map (fun e => e.path)).getD
              ((((st.gifEntries.map (fun e => e.path)).indexOf cur : Int) + offset).emod
                ((st.gifEntries.map (fun e => e.path)).length : Int)).toNat "")) ∧
    (∀ (dirOf : String → String) (listing : String → List GifEntry)
      (fs : String → Option GifFile) (render : Nat → Nat × Nat → Nat)
      (st : AppState) (offset : Int) (cur : String)
      (first : GifEntry) (rest : List GifEntry),
      st.gifEntries = first :: rest →
      st.currentFile = some cur →
      cur ∉ st.gifEntries.map (fun e => e.path) →
      openAdjacentFile dirOf listing fs render st offset
        = loadGif dirOf listing fs render st first.path) ∧
    (∀ (dirOf : String → String) (listing : String → List GifEntry)
      (fs : String → Option GifFile) (render : Nat → Nat × Nat → Nat)
      (st : AppState) (offset : Int) (first : GifEntry) (rest : List GifEntry),
      st.gifEntries = first :: rest →
      st.currentFile = none →
      openAdjacentFile dirOf listing fs render st offset
        = loadGif dirOf listing fs render st first.path) := by
  refine ⟨?_, ?_, ?_⟩
  · intro dirOf listing fs render st offset cur hcur hmem
    cases hg : st.gifEntries with
    | nil => rw [hg] at hmem; simp at hmem
    | cons first rest =>
      rw [hg] at hmem
      rw [openAdjacentFile, hg, hcur]
      simp only [hg]
      rw [if_pos hmem]
  · intro dirOf listing fs render st offset cur first rest hg hcur hmem
    rw [hg] at hmem
    rw [openAdjacentFile, hg, hcur]
    simp only [hg]
    rw [if_neg hmem]
  · intro dirOf listing fs render st offset first rest hg hcur
    rw [openAdjacentFile, hg, hcur]

/-- C8, witness: in the catalog a.gif, b.gif, c.gif with b.gif current,
direction +1 selects c.gif; with c.gif current it wraps to a.gif. -/
theorem c8_adjacent_navigation_witness :
    c8State.currentFile = some "b.gif" ∧
    "b.gif" ∈ c8State.gifEntries.map (fun e => e.path) ∧
    openAdjacentFile id (fun _ => []) (fun _ => none) (fun _ _ => 0) c8State 1
      = loadGif id (fun _ => []) (fun _ => none) (fun _ _ => 0) c8State
          ((c8State.gifEntries.map (fun e => e.path)).getD
            ((((c8State.gifEntries.map (fun e => e.path)).indexOf "b.gif" : Int) + 1).emod
              ((c8State.gifEntries.map (fun e => e.path)).length : Int)).toNat "") ∧
    ((c8State.gifEntries.map (fun e => e.path)).getD
        ((((c8State.gifEntries.map (fun e => e.path)).indexOf "b.gif" : Int) + 1).emod
          ((c8State.gifEntries.map (fun e => e.path)).length : Int)).toNat "")
      = "c.gif" ∧
    ((c8State.gifEntries.map (fun e => e.path)).getD
        ((((c8State.gifEntries.map (fun e => e.path)).indexOf "c.gif" : Int) + 1).emod
          ((c8State.gifEntries.map (fun e => e.path)).length : Int)).toNat "")
      = "a.gif" :=
  ⟨rfl, by decide,
   c8_adjacent_navigation.1 id (fun _ => []) (fun _ => none) (fun _ _ => 0)
     c8State 1 "b.gif" rfl (by decide),
   by decide, by decide⟩

/-- Taking the residue before adding one does not change the residue. -/
lemma emod_step (a n : Int) : (a.emod n + 1).emod n = (a + 1).emod n := by
  show (a % n + 1) % n = (a + 1) % n
  exact Int.emod_add_emod a n 1

/-- Adding the modulus itself does not change the residue. -/
lemma emod_add_self (i n : Int) : (i + n).emod n = i.emod n := by
  show (i + n) % n = i % n
  conv_lhs => rw [show i + n = i + n * 1 by ring]
  exact Int.add_mul_emod_self_left i n 1

/-- step_frame lands exactly on (current + delta) mod count. -/
lemma stepFrame_currentFrameIndex (render : Nat → Nat × Nat → Nat)
    (st : AppState) (delta : Int) (h : st.pilFrames ≠ []) :
    (stepFrame render st delta).currentFrameIndex
      = (st.currentFrameIndex + delta).emod (st.pilFrames.length : Int) := by
  have hn : 1 ≤ (st.pilFrames.length : Int) := by
    have := List.length_pos.mpr h
    omega
  have h0 : 0 ≤ (st.currentFrameIndex + delta).emod (st.pilFrames.length : Int) :=
    Int.emod_nonneg _ (by omega)
  have h1 : (st.currentFrameIndex + delta).emod (st.pilFrames.length : Int)
      < (st.pilFrames.length : Int) := Int.emod_lt_of_pos _ (by omega)
  rw [stepFrame, if_neg h, showFrame_currentFrameIndex render st _ false h]
  rw [min_eq_left (by omega), max_eq_right h0]

/-- Iterating a single forward step k times adds k modulo the count. -/
lemma stepFrame_iterate_index (render : Nat → Nat × Nat → Nat) (st : AppState)
    (h : st.pilFrames ≠ []) (h0 : 0 ≤ st.currentFrameIndex)
    (h1 : st.currentFrameIndex < (st.pilFrames.length : Int)) :
    ∀ k : Nat,
      ((fun s => stepFrame render s 1)^[k] st).pilFrames = st.pilFrames ∧
      ((fun s => stepFrame render s 1)^[k] st).currentFrameIndex
        = (st.currentFrameIndex + k).emod (st.pilFrames.length : Int) := by
  intro k
  induction k with
  | zero =>
    refine ⟨rfl, ?_⟩
    simp only [Function.iterate_zero, id_eq, Nat.cast_zero, add_zero]
    exact (Int.emod_eq_of_lt h0 h1).symm
  | succ k ih =>
    obtain ⟨ihp, ihi⟩ := ih
    have hne : ((fun s => stepFrame render s 1)^[k] st).pilFrames ≠ [] := by
      rw [ihp]; exact h
    constructor
    · rw [Function.iterate_succ_apply']
      show (stepFrame render _ 1).pilFrames = st.pilFrames
      rw [stepFrame, if_neg hne]
      rw [showFrame_pilFrames]
      exact ihp
    · rw [Function.iterate_succ_apply']
      show (stepFrame render _ 1).currentFrameIndex = _
      rw [stepFrame_currentFrameIndex render _ 1 hne, ihp, ihi]
      rw [emod_step]
      congr 1
      push_cast
      ring

/-- C9: each step_frame call advances the index by delta modulo the frame
count, and stepping forward frameCount times returns to the original
index. -/
theorem c9_step_wraparound :
    (∀ (render : Nat → Nat × Nat → Nat) (st : AppState) (delta : Int),
      st.pilFrames ≠ [] →
      (stepFrame render st delta).currentFrameIndex
        = (st.currentFrameIndex + delta).emod (st.pilFrames.length : Int)) ∧
    (∀ (render : Nat → Nat × Nat → Nat) (st : AppState),
      st.pilFrames ≠ [] →
      0 ≤ st.currentFrameIndex →
      st.currentFrameIndex < (st.pilFrames.length : Int) →
      ((fun s => stepFrame render s 1)^[st.pilFrames.length] st).currentFrameIndex
        = st.currentFrameIndex) := by
  constructor
  · intro render st delta h
    exact stepFrame_currentFrameIndex render st delta h
  · intro render st h h0 h1
    obtain ⟨-, hi⟩ :=
      stepFrame_iterate_index render st h h0 h1 st.pilFrames.length
    rw [hi, emod_add_self]
    exact Int.emod_eq_of_lt h0 h1

/-- C9, witness: from index 1 of the loaded three-frame state a single
step reaches (1 + 1) mod 3 = 2 and three steps return to 1. -/
theorem c9_step_wraparound_witness :
    (stepFrame (fun _ _ => 0) { c1HundredState with currentFrameIndex := 1 } 1).currentFrameIndex
      = ((1 : Int) + 1).emod 3 ∧
    ((fun s => stepFrame (fun _ _ => 0) s 1)^[3]
        { c1HundredState with currentFrameIndex := 1 }).currentFrameIndex = 1 :=
  ⟨c9_step_wraparound.1 (fun _ _ => 0)
      { c1HundredState with currentFrameIndex := 1 } 1 (by simp [c1HundredState, baseState]),
   c9_step_wraparound.2 (fun _ _ => 0)
      { c1HundredState with currentFrameIndex := 1 }
      (by simp [c1HundredState, baseState]) (by decide) (by decide)⟩

end GifAnimator
